import Mathlib

/-!
# Verification of the webstir-backend build/manifest pipeline

Shallow embedding of the build orchestration and manifest-hydration pipeline
of `@webstir-io/webstir-backend`:

* `src/build/pipeline.ts` — entry signatures, the incremental esbuild
  context cache, publish sourcemap policy, the type-check subprocess policy;
* `src/cache/reporters.ts` (`diff.ts` part) — output-size cache diffing;
* `src/manifest/pipeline.ts` and the legacy monolithic copy in
  `src/provider.ts` — manifest hydration, validation fallback and
  duplicate-route detection;
* the modular artifact collector (`collectArtifacts`).

File-system reads, subprocess events and the external schema validator are
modelled as explicit inputs; everything else is translated directly from the
TypeScript source.
-/

set_option maxRecDepth 4096

namespace Webstir

/-- Diagnostic severity (`'info' | 'warn' | 'error'`). -/
inductive Severity where
  | info
  | warn
  | error
deriving DecidableEq, Repr

/-- A `ModuleDiagnostic`: severity, message and optional source file. -/
structure Diagnostic where
  severity : Severity
  message : String
  file : Option String := none
deriving DecidableEq, Repr

/-- Build mode (`'build' | 'publish' | 'test'`, see `workspace.ts`). -/
inductive Mode where
  | build
  | publish
  | test
deriving DecidableEq, Repr

/-- The string form of a mode, used inside diagnostic messages. -/
def Mode.toStr : Mode → String
  | .build => "build"
  | .publish => "publish"
  | .test => "test"

/-! ## String helpers modelling the JavaScript primitives used by the source

JavaScript string primitives are modelled by structural recursion over the
character list of a `String` (UTF-16 code-unit comparison and Unicode
code-point comparison agree on all the ASCII data this pipeline handles). -/

/-- Model of JavaScript `String.prototype.endsWith`. -/
def strEndsWith (s suffix : String) : Bool :=
  decide (suffix.data <:+ s.data)

/-- Model of JavaScript `String.prototype.startsWith`. -/
def strStartsWith (s pre : String) : Bool :=
  decide (pre.data <+: s.data)

/-- Model of JavaScript `String.prototype.includes` (substring test). -/
def strContains (s sub : String) : Bool :=
  decide (sub.data <:+: s.data)

/-- Lexicographic order on character lists; models the JavaScript `<`
comparison on strings used by `Array.prototype.sort`'s default comparator. -/
def charListLe : List Char → List Char → Bool
  | [], _ => true
  | _ :: _, [] => false
  | a :: as, b :: bs => if a = b then charListLe as bs else decide (a < b)

/-- The induced order on strings. -/
def strLe (a b : String) : Prop := charListLe a.data b.data = true

instance : DecidableRel strLe := fun a b => by
  unfold strLe; infer_instance

instance : IsTotal String strLe := by
  constructor
  intro a b
  show charListLe a.data b.data = true ∨ charListLe b.data a.data = true
  generalize a.data = as
  generalize b.data = bs
  induction as generalizing bs with
  | nil => left; rfl
  | cons x xs ih =>
    cases bs with
    | nil => right; rfl
    | cons y ys =>
      by_cases hxy : x = y
      · subst hxy
        rcases ih ys with h | h
        · left; simpa [charListLe] using h
        · right; simpa [charListLe] using h
      · rcases lt_trichotomy x y with h | h | h
        · left; simp [charListLe, hxy, h]
        · exact absurd h hxy
        · right
          have hyx : y ≠ x := fun hh => hxy hh.symm
          simp [charListLe, hyx, h]

instance : IsTrans String strLe := by
  constructor
  intro a b c
  show charListLe a.data b.data = true → charListLe b.data c.data = true →
    charListLe a.data c.data = true
  generalize a.data = as
  generalize b.data = bs
  generalize c.data = cs
  induction as generalizing bs cs with
  | nil => intro _ _; rfl
  | cons x xs ih =>
    cases bs with
    | nil => intro h _; simp [charListLe] at h
    | cons y ys =>
      cases cs with
      | nil => intro _ h; simp [charListLe] at h
      | cons z zs =>
        intro h₁ h₂
        by_cases hxy : x = y <;> by_cases hyz : y = z
        · subst hxy; subst hyz
          simp only [charListLe, if_pos rfl] at h₁ h₂ ⊢
          exact ih ys zs h₁ h₂
        · subst hxy
          simpa [charListLe, hyz] using h₂
        · subst hyz
          simpa [charListLe, hxy] using h₁
        · simp only [charListLe, if_neg hxy] at h₁
          simp only [charListLe, if_neg hyz] at h₂
          have hlt : x < z :=
            lt_trans (of_decide_eq_true h₁) (of_decide_eq_true h₂)
          have hxz : x ≠ z := ne_of_lt hlt
          simp [charListLe, hxz, hlt]

instance : IsAntisymm String strLe := by
  constructor
  intro a b h₁ h₂
  have key : ∀ as bs : List Char, charListLe as bs = true →
      charListLe bs as = true → as = bs := by
    intro as
    induction as with
    | nil =>
      intro bs h₁ h₂
      cases bs with
      | nil => rfl
      | cons y ys => simp [charListLe] at h₂
    | cons x xs ih =>
      intro bs h₁ h₂
      cases bs with
      | nil => simp [charListLe] at h₁
      | cons y ys =>
        by_cases hxy : x = y
        · subst hxy
          simp only [charListLe, if_pos rfl] at h₁ h₂
          rw [ih ys h₁ h₂]
        · have hyx : y ≠ x := fun hh => hxy hh.symm
          simp only [charListLe, if_neg hxy] at h₁
          simp only [charListLe, if_neg hyx] at h₂
          exact absurd
            (lt_trans (of_decide_eq_true h₁) (of_decide_eq_true h₂))
            (lt_irrefl x)
  have hd := key a.data b.data h₁ h₂
  cases a; cases b; simp only at hd; rw [hd]

/-- Model of JavaScript `String.prototype.trim`. -/
def jsTrim (s : String) : String :=
  String.mk (((s.data.dropWhile Char.isWhitespace).reverse.dropWhile
    Char.isWhitespace).reverse)

/-- Model of JavaScript `String.prototype.toLowerCase` (ASCII range). -/
def jsToLower (s : String) : String := String.mk (s.data.map Char.toLower)

/-- Model of JavaScript `String.prototype.toUpperCase` (ASCII range). -/
def jsToUpper (s : String) : String := String.mk (s.data.map Char.toUpper)

/-- Model of Node's `path.join(a, b)` for the simple two-component case the
source uses (`a` never ends in a separator in the pipeline). -/
def pathJoin (a b : String) : String := a ++ "/" ++ b

/-- Model of Node's `path.basename`: strip trailing separators, then keep the
part after the last separator. -/
def pathBasename (s : String) : String :=
  let trimmed := (s.data.reverse.dropWhile (· = '/')).reverse
  String.mk ((trimmed.reverse.takeWhile (· ≠ '/')).reverse)

/-- The leading decimal-digit prefix of a character list, if non-empty.
Models the accepting prefix of JavaScript `parseInt(raw, 10)`. -/
def digitsPrefixNat (cs : List Char) : Option Nat :=
  let ds := cs.takeWhile (·.isDigit)
  if ds.isEmpty then none
  else some (ds.foldl (fun n c => n * 10 + (c.toNat - '0'.toNat)) 0)

/-- `resolveDiagMax` (cache/diff.ts and build/pipeline.ts): parse
`WEBSTIR_BACKEND_DIAG_MAX`, keep it when finite and positive, else 50. -/
def resolveDiagMax (raw : Option String) : Nat :=
  match raw with
  | none => 50
  | some s =>
    match digitsPrefixNat (jsTrim s).data with
    | some n => if n > 0 then n else 50
    | none => 50

/-! ## JavaScript `Map` as an insertion-ordered association list -/

/-- `Map.prototype.get`. -/
def jsMapGet {β : Type} (m : List (String × β)) (k : String) : Option β :=
  match m with
  | [] => none
  | (k', v) :: rest => if k' = k then some v else jsMapGet rest k

/-- `Map.prototype.set`: update in place when the key exists (insertion order
is preserved), else append. -/
def jsMapSet {β : Type} (m : List (String × β)) (k : String) (v : β) :
    List (String × β) :=
  match m with
  | [] => [(k, v)]
  | (k', v') :: rest =>
    if k' = k then (k, v) :: rest else (k', v') :: jsMapSet rest k v

/-- `Map.prototype.delete`. -/
def jsMapDelete {β : Type} (m : List (String × β)) (k : String) :
    List (String × β) :=
  match m with
  | [] => []
  | (k', v') :: rest =>
    if k' = k then rest else (k', v') :: jsMapDelete rest k

/-! ## Entry signatures (`createEntrySignature`, build/pipeline.ts:478) -/

/-- `createEntrySignature(entryPoints)`: sort the entry paths and join them
with `"|"` (`Array.from(entryPoints).sort().join('|')`). -/
def createEntrySignature (entryPoints : List String) : String :=
  String.intercalate "|" (entryPoints.insertionSort strLe)

/-! ## Publish sourcemap policy (`shouldEmitPublishSourcemaps`, build/pipeline.ts:168) -/

/-- `shouldEmitPublishSourcemaps(env)`: the flag must be a string whose
trimmed, lower-cased value is `on`, `true`, `1` or `yes`. -/
def shouldEmitPublishSourcemaps (flag : Option String) : Bool :=
  match flag with
  | none => false
  | some f =>
    let normalized := jsToLower (jsTrim f)
    normalized == "on" || normalized == "true" || normalized == "1" ||
      normalized == "yes"

/-- The `sourcemap` option handed to esbuild by `runEsbuild`
(build/pipeline.ts): the publish branch passes `emitPublishSourcemaps
(= isProduction && shouldEmitPublishSourcemaps(env))`, every non-publish
branch passes `true`. -/
def runEsbuildSourcemapOption (mode : Mode) (flag : Option String) : Bool :=
  let isProduction := mode == Mode.publish
  let emitPublishSourcemaps := isProduction && shouldEmitPublishSourcemaps flag
  if isProduction then emitPublishSourcemaps else true

/-! ## Incremental esbuild context cache (`runEsbuild`, build/pipeline.ts:301)

The process-wide `incrementalBuildCache : Map<string, IncrementalBuildEntry>`
is modelled as insertion-ordered association-list state; live esbuild
contexts are identified by numeric ids handed out by a counter.  One
`runEsbuildCache` step captures the cache reads/writes and the
dispose/create/rebuild/one-shot calls performed by a successful `runEsbuild`
invocation (the error path, which also disposes, is outside the claims). -/

/-- A cache entry: the entry signature and the owned esbuild context. -/
structure IncrementalBuildEntry where
  entrySignature : String
  ctxId : Nat
deriving DecidableEq, Repr

/-- Observable esbuild effects of one `runEsbuild` call. -/
inductive BuildAction where
  | disposeCtx (ctxId : Nat)
  | createCtx (ctxId : Nat)
  | rebuildCtx (ctxId : Nat)
  | oneShot
deriving DecidableEq, Repr

/-- The process-wide cache plus a fresh-id counter for new contexts. -/
structure EsbuildCacheState where
  cache : List (String × IncrementalBuildEntry)
  nextId : Nat
deriving DecidableEq, Repr

/-- `createIncrementalKey(mode, buildRoot)`: `` `${mode}:${path.resolve(buildRoot)}` ``.
`path.resolve` is modelled as the identity: the pipeline always passes
absolute, already-resolved build roots. -/
def createIncrementalKey (mode : Mode) (buildRoot : String) : String :=
  mode.toStr ++ ":" ++ buildRoot

/-- `disposeIncrementalBuild(key)`: dispose and drop the cached entry when
present. -/
def disposeIncrementalBuild (s : EsbuildCacheState) (key : String) :
    EsbuildCacheState × List BuildAction :=
  match jsMapGet s.cache key with
  | some cached =>
    ({ s with cache := jsMapDelete s.cache key },
      [BuildAction.disposeCtx cached.ctxId])
  | none => (s, [])

/-- The cache/session behaviour of `runEsbuild(options)`:
`useIncremental = !isProduction && incremental`, `incrementalKey` computed
only under `useIncremental`, empty entry list disposes (when keyed) and
returns, the publish and plain one-shot branches guard their dispose on the
(then necessarily absent) `incrementalKey`, and the incremental branch
reuses a signature-matching session, else disposes the stale one and
creates, stores and rebuilds a fresh session.  The JS truthiness test
`useIncremental && incrementalKey && entrySignature` makes an
empty-string signature fall through to the one-shot branch. -/
def runEsbuildCache (mode : Mode) (buildRoot : String) (incremental : Bool)
    (entryPoints : List String) (s : EsbuildCacheState) :
    EsbuildCacheState × List BuildAction :=
  let isProduction := mode == Mode.publish
  let useIncremental := !isProduction && incremental
  let incrementalKey : Option String :=
    if useIncremental then some (createIncrementalKey mode buildRoot)
    else none
  if entryPoints.isEmpty then
    match incrementalKey with
    | some key => disposeIncrementalBuild s key
    | none => (s, [])
  else
    let entrySignature : Option String :=
      if useIncremental then some (createEntrySignature entryPoints)
      else none
    if isProduction then
      match incrementalKey with
      | some key =>
        let r := disposeIncrementalBuild s key
        (r.1, r.2 ++ [BuildAction.oneShot])
      | none => (s, [BuildAction.oneShot])
    else
      match incrementalKey, entrySignature with
      | some key, some sig =>
        if sig ≠ "" then
          match jsMapGet s.cache key with
          | some cached =>
            if cached.entrySignature = sig then
              (s, [BuildAction.rebuildCtx cached.ctxId])
            else
              let r := disposeIncrementalBuild s key
              let ctxId := r.1.nextId
              ({ cache := jsMapSet r.1.cache key ⟨sig, ctxId⟩,
                 nextId := ctxId + 1 },
                r.2 ++ [BuildAction.createCtx ctxId,
                  BuildAction.rebuildCtx ctxId])
          | none =>
            let ctxId := s.nextId
            ({ cache := jsMapSet s.cache key ⟨sig, ctxId⟩,
               nextId := ctxId + 1 },
              [BuildAction.createCtx ctxId, BuildAction.rebuildCtx ctxId])
        else
          let r := disposeIncrementalBuild s key
          (r.1, r.2 ++ [BuildAction.oneShot])
      | _, _ => (s, [BuildAction.oneShot])

/-! ## JavaScript `Set` dedup (`Array.from(new Set(xs))`) -/

/-- Helper for `jsSetDedup`, carrying the set of elements already seen. -/
def jsSetDedupAux {α : Type} [DecidableEq α] (seen : List α) :
    List α → List α
  | [] => []
  | a :: as =>
    if a ∈ seen then jsSetDedupAux seen as
    else a :: jsSetDedupAux (a :: seen) as

/-- `Array.from(new Set(xs))`: deduplicate, keeping first occurrences in
insertion order. -/
def jsSetDedup {α : Type} [DecidableEq α] (xs : List α) : List α :=
  jsSetDedupAux [] xs

/-! ## Artifact collection (`collectArtifacts`, modular artifacts module) -/

/-- A `ModuleArtifact`: absolute path and type (`'bundle' | 'asset'`). -/
structure ModuleArtifact where
  path : String
  type : String
deriving DecidableEq, Repr

/-- `collectArtifacts(buildRoot, includeSourceMaps)`: glob `**/*.js` always
and `**/*.js.map` only when `includeSourceMaps`, dedupe through a `Set`, and
classify each relative path as `asset` when it ends in `.map`, else `bundle`.
The directory scan is modelled by `files`, the list of relative paths under
the build root, with the glob patterns acting as extension filters. -/
def collectArtifacts (buildRoot : String) (files : List String)
    (includeSourceMaps : Bool) : List ModuleArtifact :=
  let jsMatches := files.filter (fun f => strEndsWith f ".js")
  let mapMatches :=
    if includeSourceMaps then files.filter (fun f => strEndsWith f ".js.map")
    else []
  let matched := jsSetDedup (jsMatches ++ mapMatches)
  matched.map (fun relativePath =>
    { path := pathJoin buildRoot relativePath,
      type := if strEndsWith relativePath ".map" then "asset" else "bundle" })

/-! ## Type-check subprocess (`runTypeCheck`, build/pipeline.ts:98) -/

/-- Outcome of spawning `tsc -p <tsconfig> --noEmit`: either the spawn
itself errors (with an optional error `code`), or the process exits with an
exit code after producing captured stdout/stderr. -/
inductive TscOutcome where
  | spawnError (code : Option String)
  | exited (exitCode : Int) (stdout stderr : String)
deriving DecidableEq, Repr

/-- `runTypeCheck(tsconfigPath, env, diagnostics)`: the emitted diagnostics
and whether the promise resolves (`true`) or rejects (`false`, a fatal
build failure). -/
def runTypeCheck (tsconfigPath : String) (tsconfigExists : Bool)
    (outcome : TscOutcome) : List Diagnostic × Bool :=
  if !tsconfigExists then
    ([⟨Severity.warn,
       "TypeScript config not found at " ++ tsconfigPath ++
         "; skipping type-check.", none⟩], true)
  else
    match outcome with
    | TscOutcome.spawnError code =>
      if code = some "ENOENT" then
        ([⟨Severity.warn,
           "TypeScript compiler (tsc) not found in PATH; skipping type-check.",
           none⟩], true)
      else ([], false)
    | TscOutcome.exited code stdout stderr =>
      if code = 0 then ([], true)
      else
        ([⟨Severity.error,
           "Type checking failed (exit code " ++ toString code ++ ").",
           some tsconfigPath⟩] ++
         (if jsTrim stderr ≠ "" then [⟨Severity.error, jsTrim stderr, none⟩]
          else []) ++
         (if jsTrim stdout ≠ "" then [⟨Severity.info, jsTrim stdout, none⟩]
          else []), false)

/-! ## Route path normalization and duplicate detection
(manifest/pipeline.ts:110, identical inline copy in provider.ts:288) -/

/-- The shape of a route definition as the duplicate detector sees it:
`method`/`path` are `none` when absent or not strings (the code guards both
with `typeof ... === 'string'` / defaults). -/
structure RouteDef where
  method : Option String := none
  path : Option String := none
deriving DecidableEq, Repr

/-- `s.replace(/\/+/, '/')` with a non-global regex: only the FIRST run of
consecutive slashes is collapsed to a single slash; later runs are left
untouched. -/
def collapseFirstSlashRun : List Char → List Char
  | [] => []
  | c :: rest =>
    if c = '/' then '/' :: rest.dropWhile (· = '/')
    else c :: collapseFirstSlashRun rest

/-- `normalizePath(p)`: non-strings become `''`; ensure a leading slash;
apply the (first-run-only) slash collapse; strip one trailing slash unless
the result is the single-character root. -/
def normalizePath (p : Option String) : String :=
  let s := match p with
    | some s => s
    | none => ""
  let s := if strStartsWith s "/" then s else "/" ++ s
  let s := String.mk (collapseFirstSlashRun s.data)
  if s.length > 1 && strEndsWith s "/" then String.mk s.data.dropLast else s

/-- The duplicate-detection key ``${method} ${pathKey}`` of one route. -/
def routeKey (r : RouteDef) : String :=
  let method := match r.method with
    | some m => jsToUpper m
    | none => ""
  let pathKey := normalizePath r.path
  method ++ " " ++ pathKey

/-- The `seen` map after the counting loop: for each key in order,
`seen.set(key, (seen.get(key) ?? 0) + 1)`. -/
def buildSeen (keys : List String) : List (String × Nat) :=
  keys.foldl
    (fun seen key => jsMapSet seen key ((jsMapGet seen key).getD 0 + 1)) []

/-- `Array.from(seen.entries()).filter(([, count]) => count > 1)`. -/
def duplicateRouteGroups (routes : List RouteDef) : List (String × Nat) :=
  (buildSeen (routes.map routeKey)).filter (fun p => decide (1 < p.2))

/-- The diagnostics emitted by the duplicate-route check: one `warn` listing
every duplicated key with its occurrence count, or nothing. -/
def duplicateRouteDiagnostics (routes : List RouteDef) : List Diagnostic :=
  let dups := duplicateRouteGroups routes
  if dups.length > 0 then
    [⟨Severity.warn,
      "[webstir-backend] duplicate route definitions: " ++
        String.intercalate ", "
          (dups.map (fun p => p.1 ++ " (" ++ toString p.2 ++ "x)")), none⟩]
  else []

/-! ## Output-size cache diff (`persistAndDiffOutputs`, cache/diff.ts:49) -/

/-- `persistAndDiffOutputs(workspaceRoot, _buildRoot, outputs, env,
diagnostics, mode)` from `cache/diff.ts`.  The persisted JSON object
`.webstir/backend-outputs.json` is modelled as an insertion-ordered
association list; `previous = none` models a missing or unreadable cache
file (treated as `{}`), and an `undefined` `outputs` returns before any
write.  Returns the emitted diagnostics and the persisted state after the
call. -/
def persistAndDiffOutputs (previous : Option (List (String × Nat)))
    (outputs : Option (List (String × Nat))) (mode : Mode)
    (diagMaxRaw : Option String) :
    List Diagnostic × Option (List (String × Nat)) :=
  match outputs with
  | none => ([], previous)
  | some out =>
    let diagMax := resolveDiagMax diagMaxRaw
    let prev := previous.getD []
    let changed :=
      (out.filter (fun p => decide (jsMapGet prev p.1 ≠ some p.2))).map
        Prod.fst
    let removed :=
      (prev.filter (fun p => decide (jsMapGet out p.1 = none))).map Prod.fst
    let diags :=
      if changed.length + removed.length > 0 then
        let listStr := String.intercalate ", " (changed.take diagMax)
        let omitted :=
          if changed.length > diagMax then
            " (+" ++ toString (changed.length - diagMax) ++ " more)"
          else ""
        let removedInfo :=
          if removed.length > 0 then ", removed=" ++ toString removed.length
          else ""
        [⟨Severity.info,
          "[webstir-backend] " ++ mode.toStr ++ ":changed " ++
            toString changed.length ++ " file(s): " ++ listStr ++ omitted ++
            removedInfo, none⟩]
      else []
    (diags, some out)

/-! ## Manifest hydration data model

The `ModuleManifest` and its collaborator inputs, as the two hydration
implementations (`loadWorkspaceModuleManifest` in provider.ts and
`loadBackendModuleManifest` in manifest/pipeline.ts) see them.  Optional
fields are `Option`-valued with `none` standing for JavaScript
absent/`undefined`/`null` (or, where the code guards with `typeof`/
`Array.isArray`, for a value of the wrong runtime type). -/

/-- An init/dispose hook descriptor (opaque payload). -/
structure HookDef where
  name : Option String := none
deriving DecidableEq, Repr

/-- A view definition (only its `path` is inspected by this pipeline). -/
structure ViewDef where
  path : Option String := none
deriving DecidableEq, Repr

/-- A job definition: the checks read `name` and `schedule`. -/
structure JobDef where
  name : Option String := none
  schedule : Option String := none
deriving DecidableEq, Repr

/-- An event definition (opaque payload; only counted). -/
structure EventDef where
  name : Option String := none
deriving DecidableEq, Repr

/-- A service definition (opaque payload; only counted). -/
structure ServiceDef where
  name : Option String := none
deriving DecidableEq, Repr

/-- The full `ModuleManifest` produced by hydration. -/
structure ModuleManifest where
  contractVersion : String
  name : String
  version : String
  kind : String
  capabilities : List String
  routes : List RouteDef
  views : List ViewDef
  jobs : List JobDef
  events : List EventDef
  services : List ServiceDef
  init : Option HookDef := none
  dispose : Option HookDef := none
deriving DecidableEq, Repr

/-- The duck-typed `definition.manifest` object: every field may be
absent. -/
structure PartialManifest where
  contractVersion : Option String := none
  name : Option String := none
  version : Option String := none
  kind : Option String := none
  capabilities : Option (List String) := none
  routes : Option (List RouteDef) := none
  views : Option (List ViewDef) := none
  jobs : Option (List JobDef) := none
  events : Option (List EventDef) := none
  services : Option (List ServiceDef) := none
  init : Option HookDef := none
  dispose : Option HookDef := none
deriving DecidableEq, Repr

/-- One entry of `definition.routes`: a route definition plus its (out of
scope) handler. -/
structure RouteEntry where
  definition : RouteDef
deriving DecidableEq, Repr

/-- One entry of `definition.views`. -/
structure ViewEntry where
  definition : ViewDef
deriving DecidableEq, Repr

/-- A loaded compiled module definition (`loadModuleDefinition` result). -/
structure ModuleDefinition where
  manifest : Option PartialManifest := none
  routes : Option (List RouteEntry) := none
  views : Option (List ViewEntry) := none
deriving DecidableEq, Repr

/-- The `webstir.module` configuration block of the workspace
`package.json`. -/
structure WorkspaceModuleConfig where
  contractVersion : Option String := none
  name : Option String := none
  version : Option String := none
  capabilities : Option (List String) := none
  routes : Option (List RouteDef) := none
  views : Option (List ViewDef) := none
  jobs : Option (List JobDef) := none
  events : Option (List EventDef) := none
  services : Option (List ServiceDef) := none
  init : Option HookDef := none
  dispose : Option HookDef := none
deriving DecidableEq, Repr

/-- The `webstir` field of the workspace `package.json`. -/
structure WebstirField where
  module : Option WorkspaceModuleConfig := none
deriving DecidableEq, Repr

/-- The parsed workspace `package.json`. -/
structure WorkspacePackageJson where
  name : Option String := none
  version : Option String := none
  webstir : Option WebstirField := none
deriving DecidableEq, Repr

/-- One zod validation issue: a path into the object and a message. -/
structure ValidationIssue where
  path : List String
  message : String
deriving DecidableEq, Repr

/-- The outcome of `moduleManifestSchema.safeParse`. -/
inductive ValidationResult where
  | ok (data : ModuleManifest)
  | err (issues : List ValidationIssue)
deriving DecidableEq, Repr

/-- `CONTRACT_VERSION` from `@webstir-io/module-contract` (external to this
repository; its value as exercised by the repository's tests). -/
def CONTRACT_VERSION : String := "1.0.0"

/-- `deriveModuleName(pkg, workspaceRoot)` (identical in provider.ts:507 and
manifest/pipeline.ts:233): config-block name when a non-empty string, else
the package name when a non-empty string, else a synthesized
`backend-module-<directory-basename>`. -/
def deriveModuleName (pkg : Option WorkspacePackageJson)
    (workspaceRoot : String) : String :=
  let fromConfig := ((pkg.bind (·.webstir)).bind (·.module)).bind (·.name)
  let fromPkg := pkg.bind (·.name)
  if 0 < (fromConfig.getD "").length then fromConfig.getD ""
  else if 0 < (fromPkg.getD "").length then fromPkg.getD ""
  else "backend-module-" ++ pathBasename workspaceRoot

/-- `deriveModuleVersion(pkg)`: config-block version when a non-empty
string, else the package version when a non-empty string, else `0.0.0`. -/
def deriveModuleVersion (pkg : Option WorkspacePackageJson) : String :=
  let fromConfig := ((pkg.bind (·.webstir)).bind (·.module)).bind (·.version)
  let fromPkg := pkg.bind (·.version)
  if 0 < (fromConfig.getD "").length then fromConfig.getD ""
  else if 0 < (fromPkg.getD "").length then fromPkg.getD ""
  else "0.0.0"

/-- The workspace package as seen after the guarded `readFile`/`JSON.parse`:
a read or parse failure leaves `workspacePackage` undefined. -/
def workspacePackageOf (readPkg : Except String WorkspacePackageJson) :
    Option WorkspacePackageJson :=
  match readPkg with
  | Except.ok p => some p
  | Except.error _ => none

/-- The `warn` diagnostic emitted when the workspace `package.json` cannot
be read or parsed. -/
def pkgReadDiagnostics (readPkg : Except String WorkspacePackageJson)
    (workspaceRoot : String) : List Diagnostic :=
  match readPkg with
  | Except.ok _ => []
  | Except.error e =>
    [⟨Severity.warn,
      "[webstir-backend] unable to read " ++
        pathJoin workspaceRoot "package.json" ++ ": " ++ e ++
        ". Using defaults.", none⟩]

/-- The manifest candidate: static config defaults, then — when a compiled
definition was loaded — the definition spread over the candidate with
routes/views replaced by the definition's, capabilities unioned through a
`Set`, and jobs/events/services/init/dispose taken from the definition when
present. -/
def loadManifestCandidate (readPkg : Except String WorkspacePackageJson)
    (defn : Option ModuleDefinition) (workspaceRoot : String) :
    ModuleManifest :=
  let workspacePackage := workspacePackageOf readPkg
  let moduleConfig :=
    ((workspacePackage.bind (·.webstir)).bind (·.module)).getD {}
  let manifestCandidate : ModuleManifest := {
    contractVersion := moduleConfig.contractVersion.getD CONTRACT_VERSION
    name := match moduleConfig.name with
      | some n => n
      | none => deriveModuleName workspacePackage workspaceRoot
    version := match moduleConfig.version with
      | some v => v
      | none => deriveModuleVersion workspacePackage
    kind := "backend"
    capabilities := moduleConfig.capabilities.getD []
    routes := moduleConfig.routes.getD []
    views := moduleConfig.views.getD []
    jobs := moduleConfig.jobs.getD []
    events := moduleConfig.events.getD []
    services := moduleConfig.services.getD []
    init := moduleConfig.init
    dispose := moduleConfig.dispose }
  match defn with
  | none => manifestCandidate
  | some definition =>
    let definitionManifest := definition.manifest.getD {}
    let routesFromDefinition := definition.routes.map
      (fun rs => rs.map (·.definition))
    let viewsFromDefinition := definition.views.map
      (fun vs => vs.map (·.definition))
    let mergedCapabilities := jsSetDedup
      (manifestCandidate.capabilities ++
        (definitionManifest.capabilities.getD []))
    { contractVersion :=
        definitionManifest.contractVersion.getD
          manifestCandidate.contractVersion
      name := definitionManifest.name.getD manifestCandidate.name
      version := definitionManifest.version.getD manifestCandidate.version
      kind := definitionManifest.kind.getD manifestCandidate.kind
      capabilities := mergedCapabilities
      routes := match routesFromDefinition with
        | some r => r
        | none => definitionManifest.routes.getD manifestCandidate.routes
      views := match viewsFromDefinition with
        | some v => v
        | none => definitionManifest.views.getD manifestCandidate.views
      jobs := definitionManifest.jobs.getD manifestCandidate.jobs
      events := definitionManifest.events.getD manifestCandidate.events
      services := definitionManifest.services.getD manifestCandidate.services
      init := match definitionManifest.init with
        | some i => some i
        | none => manifestCandidate.init
      dispose := match definitionManifest.dispose with
        | some d => some d
        | none => manifestCandidate.dispose }

/-- The minimal fallback manifest returned when validation fails. -/
def fallbackManifest (workspacePackage : Option WorkspacePackageJson)
    (workspaceRoot : String) : ModuleManifest :=
  { contractVersion := CONTRACT_VERSION
    name := deriveModuleName workspacePackage workspaceRoot
    version := deriveModuleVersion workspacePackage
    kind := "backend"
    capabilities := []
    routes := []
    views := []
    jobs := []
    events := []
    services := []
    init := none
    dispose := none }

/-- The single `error` diagnostic emitted on validation failure, listing
every issue as `path-joined-with-dots (or "(root)"): message`, joined by
`; `. -/
def validationFailureDiagnostic (issues : List ValidationIssue) :
    Diagnostic :=
  ⟨Severity.error,
    "[webstir-backend] module manifest validation failed (" ++
      String.intercalate "; " (issues.map (fun issue =>
        (let joined := String.intercalate "." issue.path
         if joined = "" then "(root)" else joined) ++ ": " ++
          issue.message)) ++
      "). Falling back to defaults.", none⟩

/-- The post-validation consistency checks (manifest/pipeline.ts:110-173,
provider.ts:286-353): duplicate-route warning, routes-without-entry-points
warning, jobs/events/services count info, jobs-without-schedule warning,
and the final route/view/capability summary, in emission order. -/
def postValidationDiagnostics (manifest : ModuleManifest)
    (entryPoints : List String) : List Diagnostic :=
  duplicateRouteDiagnostics manifest.routes ++
  (if manifest.routes.length ≠ 0 ∧ entryPoints.length = 0 then
    [⟨Severity.warn,
      "[webstir-backend] module manifest defines routes but no entry points were built. Ensure backend compilation produced handlers.",
      none⟩]
  else []) ++
  (let jobs := manifest.jobs
   let events := manifest.events
   let services := manifest.services
   (if jobs.length + events.length + services.length > 0 then
     [⟨Severity.info,
       "[webstir-backend] manifest jobs=" ++ toString jobs.length ++
         " events=" ++ toString events.length ++ " services=" ++
         toString services.length, none⟩]
   else []) ++
   (let noSchedule := jobs.filter
      (fun j => j.name.isSome && j.schedule.isNone)
    if noSchedule.length > 0 then
      let names := String.intercalate ", "
        ((noSchedule.map (fun j => j.name.getD "")).take 10)
      let omitted :=
        if noSchedule.length > 10 then
          " (+" ++ toString (noSchedule.length - 10) ++ " more)"
        else ""
      [⟨Severity.warn,
        "[webstir-backend] jobs without schedules: " ++ names ++ omitted,
        none⟩]
    else [])) ++
  (let caps :=
    if manifest.capabilities.length > 0 then
      " [" ++ String.intercalate ", " manifest.capabilities ++ "]"
    else ""
   [⟨Severity.info,
     "[webstir-backend] manifest routes=" ++
       toString manifest.routes.length ++ " views=" ++
       toString manifest.views.length ++ caps, none⟩])

/-- `loadBackendModuleManifest(options)` (manifest/pipeline.ts:29).  The
file system and dynamic import are explicit inputs: `readPkg` is the
outcome of reading/parsing the workspace `package.json`, `loadDef` is the
outcome of `loadModuleDefinition` (its emitted warn messages plus the
definition, if any), and `validate` is `moduleManifestSchema.safeParse`.
Returns the hydrated manifest and the diagnostics list after appending. -/
def loadBackendModuleManifest (readPkg : Except String WorkspacePackageJson)
    (loadDef : List String × Option ModuleDefinition)
    (validate : ModuleManifest → ValidationResult)
    (workspaceRoot : String) (entryPoints : List String)
    (diagnostics : List Diagnostic) : ModuleManifest × List Diagnostic :=
  let workspacePackage := workspacePackageOf readPkg
  let diags := diagnostics ++ pkgReadDiagnostics readPkg workspaceRoot
  let diags := diags ++ loadDef.1.map
    (fun m => (⟨Severity.warn, m, none⟩ : Diagnostic))
  let manifestCandidate := loadManifestCandidate readPkg loadDef.2
    workspaceRoot
  match validate manifestCandidate with
  | ValidationResult.err issues =>
    (fallbackManifest workspacePackage workspaceRoot,
      diags ++ [validationFailureDiagnostic issues])
  | ValidationResult.ok manifest =>
    (manifest, diags ++ postValidationDiagnostics manifest entryPoints)

/-- `loadWorkspaceModuleManifest(workspaceRoot, buildRoot, entryPoints,
diagnostics)` — the monolithic copy in provider.ts:201, whose body is
line-for-line the code of `loadBackendModuleManifest` (only the signature
shape and comments differ). -/
def loadWorkspaceModuleManifest
    (readPkg : Except String WorkspacePackageJson)
    (loadDef : List String × Option ModuleDefinition)
    (validate : ModuleManifest → ValidationResult)
    (workspaceRoot : String) (entryPoints : List String)
    (diagnostics : List Diagnostic) : ModuleManifest × List Diagnostic :=
  let workspacePackage := workspacePackageOf readPkg
  let diags := diagnostics ++ pkgReadDiagnostics readPkg workspaceRoot
  let diags := diags ++ loadDef.1.map
    (fun m => (⟨Severity.warn, m, none⟩ : Diagnostic))
  let manifestCandidate := loadManifestCandidate readPkg loadDef.2
    workspaceRoot
  match validate manifestCandidate with
  | ValidationResult.err issues =>
    (fallbackManifest workspacePackage workspaceRoot,
      diags ++ [validationFailureDiagnostic issues])
  | ValidationResult.ok manifest =>
    (manifest, diags ++ postValidationDiagnostics manifest entryPoints)

/-- Modelled from the spec: `moduleManifestSchema` of
`@webstir-io/module-contract` is not part of this repository's sources.
Per spec §3 ("Invariant: name and version are always non-empty after
hydration") and §4.6 ("This fallback must never itself fail validation"),
the schema is modelled as requiring a non-empty name and version, the
fixed kind `backend`, and a non-empty contract version. -/
def moduleManifestSchemaCheck (m : ModuleManifest) : Bool :=
  decide (0 < m.name.length) && decide (0 < m.version.length) &&
    (m.kind == "backend") && decide (0 < m.contractVersion.length)

theorem mem_jsSetDedupAux {α : Type} [DecidableEq α] (x : α) :
    ∀ (l : List α) (seen : List α),
      x ∈ jsSetDedupAux seen l ↔ x ∈ l ∧ x ∉ seen
  | [], seen => by simp [jsSetDedupAux]
  | a :: as, seen => by
    simp only [jsSetDedupAux]
    by_cases ha : a ∈ seen
    · rw [if_pos ha, mem_jsSetDedupAux x as seen]
      constructor
      · rintro ⟨hm, hs⟩; exact ⟨List.mem_cons_of_mem a hm, hs⟩
      · rintro ⟨hm, hs⟩
        rcases List.mem_cons.mp hm with rfl | hm
        · exact absurd ha hs
        · exact ⟨hm, hs⟩
    · rw [if_neg ha]
      constructor
      · intro hmem
        rcases List.mem_cons.mp hmem with rfl | hm
        · exact ⟨List.mem_cons_self _ _, ha⟩
        · have h := (mem_jsSetDedupAux x as (a :: seen)).mp hm
          exact ⟨List.mem_cons_of_mem a h.1,
            fun hx => h.2 (List.mem_cons_of_mem a hx)⟩
      · rintro ⟨hm, hs⟩
        by_cases hxa : x = a
        · subst hxa; exact List.mem_cons_self _ _
        · rcases List.mem_cons.mp hm with rfl | hm
          · exact absurd rfl hxa
          · refine List.mem_cons_of_mem a
              ((mem_jsSetDedupAux x as (a :: seen)).mpr ⟨hm, fun hx => ?_⟩)
            rcases List.mem_cons.mp hx with h | h
            exacts [hxa h, hs h]

theorem mem_jsSetDedup {α : Type} [DecidableEq α] {x : α} {xs : List α} :
    x ∈ jsSetDedup xs ↔ x ∈ xs := by
  rw [jsSetDedup, mem_jsSetDedupAux]
  simp

/-! ## Suffix facts about `strEndsWith` -/

theorem strEndsWith_iff {s suffix : String} :
    strEndsWith s suffix = true ↔ suffix.data <:+ s.data := by
  simp [strEndsWith]

/-- A string ending in `".js"` does not end in `".map"` nor in `".js.map"`. -/
theorem js_not_map {s : String} (h : strEndsWith s ".js" = true) :
    strEndsWith s ".map" = false ∧ strEndsWith s ".js.map" = false := by
  rw [strEndsWith_iff] at h
  constructor
  · rw [Bool.eq_false_iff]
    intro hc
    rw [strEndsWith_iff] at hc
    have := List.suffix_of_suffix_length_le h hc (by simp)
    simp at this
    revert this; decide
  · rw [Bool.eq_false_iff]
    intro hc
    rw [strEndsWith_iff] at hc
    have := List.suffix_of_suffix_length_le h hc (by simp)
    simp at this
    revert this; decide

/-- A string ending in `".js.map"` ends in `".map"` and not in `".js"`. -/
theorem jsmap_ends_map {s : String} (h : strEndsWith s ".js.map" = true) :
    strEndsWith s ".map" = true ∧ strEndsWith s ".js" = false := by
  rw [strEndsWith_iff] at h
  constructor
  · rw [strEndsWith_iff]
    exact List.IsSuffix.trans (by decide) h
  · rw [Bool.eq_false_iff]
    intro hc
    rw [strEndsWith_iff] at hc
    have := List.suffix_of_suffix_length_le hc h (by simp)
    simp at this
    revert this; decide

/-- If a joined path `buildRoot/rel` ends in `".map"`, so does `rel`. -/
theorem pathJoin_endsWith_map {buildRoot rel : String}
    (h : strEndsWith (pathJoin buildRoot rel) ".map" = true) :
    strEndsWith rel ".map" = true := by
  rw [strEndsWith_iff] at h
  rw [strEndsWith_iff]
  have hdata : (pathJoin buildRoot rel).data =
      (buildRoot.data ++ ['/']) ++ rel.data := by
    simp [pathJoin]
  rw [hdata] at h
  rcases Nat.lt_or_ge rel.data.length ".map".data.length with hlt | hge
  · exfalso
    have hsuf : ('/' :: rel.data) <:+ (buildRoot.data ++ ['/']) ++ rel.data :=
      ⟨buildRoot.data, by simp⟩
    have hss : ('/' :: rel.data) <:+ ".map".data :=
      List.suffix_of_suffix_length_le hsuf h
        (by simpa using Nat.succ_le_of_lt hlt)
    have : '/' ∈ ".map".data := hss.subset (List.mem_cons_self _ _)
    revert this; decide
  · exact List.suffix_of_suffix_length_le h
      ⟨buildRoot.data ++ ['/'], rfl⟩ hge

/-- C5. For every permutation of an entry-point set the derived entry
signature is the same string; in particular both orderings of
`jobs/nightly/index.ts` and `index.ts` yield
`"index.ts|jobs/nightly/index.ts"`. -/
theorem createEntrySignature_perm_invariant :
    (∀ l₁ l₂ : List String, l₁.Perm l₂ →
      createEntrySignature l₁ = createEntrySignature l₂) ∧
    createEntrySignature ["jobs/nightly/index.ts", "index.ts"] =
      "index.ts|jobs/nightly/index.ts" ∧
    createEntrySignature ["index.ts", "jobs/nightly/index.ts"] =
      "index.ts|jobs/nightly/index.ts" := by
  refine ⟨fun l₁ l₂ h => ?_, by decide, by decide⟩
  unfold createEntrySignature
  congr 1
  exact List.eq_of_perm_of_sorted
    (((List.perm_insertionSort strLe l₁).trans h).trans
      (List.perm_insertionSort strLe l₂).symm)
    (List.sorted_insertionSort strLe l₁)
    (List.sorted_insertionSort strLe l₂)

/-- Witness for C5 at a concrete permutation pair. -/
theorem createEntrySignature_perm_invariant_witness :
    createEntrySignature ["jobs/nightly/index.ts", "index.ts"] =
      createEntrySignature ["index.ts", "jobs/nightly/index.ts"] :=
  createEntrySignature_perm_invariant.1 _ _ (by decide)

/-- C3. Every `.js` file under the build root appears as a `bundle`
artifact; a `.js.map` file appears (as an `asset` artifact) exactly when
sourcemaps were included for the run; and no artifact whose path ends in
`.map` is ever classified `bundle`. -/
theorem collectArtifacts_classification (buildRoot : String)
    (files : List String) (inc : Bool) :
    (∀ f ∈ files, strEndsWith f ".js" = true →
      ({ path := pathJoin buildRoot f, type := "bundle" } : ModuleArtifact) ∈
        collectArtifacts buildRoot files inc) ∧
    (∀ f ∈ files, strEndsWith f ".js.map" = true →
      (({ path := pathJoin buildRoot f, type := "asset" } : ModuleArtifact) ∈
        collectArtifacts buildRoot files inc ↔ inc = true)) ∧
    (∀ a ∈ collectArtifacts buildRoot files inc,
      strEndsWith a.path ".map" = true → a.type = "asset") := by
  refine ⟨?_, ?_, ?_⟩
  · intro f hf hjs
    have hmem : f ∈ jsSetDedup
        ((files.filter (fun f => strEndsWith f ".js")) ++
          (if inc then files.filter (fun f => strEndsWith f ".js.map")
            else [])) := by
      rw [mem_jsSetDedup]
      exact List.mem_append_left _ (List.mem_filter.mpr ⟨hf, hjs⟩)
    have := List.mem_map_of_mem (fun relativePath =>
      ({ path := pathJoin buildRoot relativePath,
         type := if strEndsWith relativePath ".map" then "asset"
           else "bundle" } : ModuleArtifact)) hmem
    simpa [collectArtifacts, (js_not_map hjs).1] using this
  · intro f hf hmap
    constructor
    · intro hin
      by_contra hne
      have hincf : inc = false := by
        cases inc
        · rfl
        · exact absurd rfl hne
      subst hincf
      have hin' : ({ path := pathJoin buildRoot f, type := "asset" } :
          ModuleArtifact) ∈
          (jsSetDedup ((files.filter (fun f => strEndsWith f ".js")) ++
            [])).map (fun relativePath =>
              ({ path := pathJoin buildRoot relativePath,
                 type := if strEndsWith relativePath ".map" then "asset"
                   else "bundle" } : ModuleArtifact)) := hin
      rw [List.mem_map] at hin'
      rcases hin' with ⟨rel, hrel, heq⟩
      rw [mem_jsSetDedup, List.append_nil, List.mem_filter] at hrel
      have htype : (if strEndsWith rel ".map" then "asset" else "bundle") =
          "asset" := congrArg ModuleArtifact.type heq
      rw [(js_not_map hrel.2).1] at htype
      simp at htype
    · intro hinc
      subst hinc
      have hmem : f ∈ jsSetDedup
          ((files.filter (fun f => strEndsWith f ".js")) ++
            files.filter (fun f => strEndsWith f ".js.map")) := by
        rw [mem_jsSetDedup]
        exact List.mem_append_right _ (List.mem_filter.mpr ⟨hf, hmap⟩)
      have := List.mem_map_of_mem (fun relativePath =>
        ({ path := pathJoin buildRoot relativePath,
           type := if strEndsWith relativePath ".map" then "asset"
             else "bundle" } : ModuleArtifact)) hmem
      simpa [collectArtifacts, (jsmap_ends_map hmap).1] using this
  · intro a ha hpathmap
    simp only [collectArtifacts, List.mem_map] at ha
    rcases ha with ⟨rel, _, heq⟩
    have hrelmap : strEndsWith rel ".map" = true :=
      pathJoin_endsWith_map (by
        have hp : a.path = pathJoin buildRoot rel :=
          (congrArg ModuleArtifact.path heq).symm
        rwa [hp] at hpathmap)
    have := congrArg ModuleArtifact.type heq
    simp only [hrelmap, if_pos] at this
    exact this.symm

/-- Witness for C3 at a concrete file list. -/
theorem collectArtifacts_classification_witness :
    ({ path := "b/index.js", type := "bundle" } : ModuleArtifact) ∈
      collectArtifacts "b" ["index.js", "index.js.map"] true ∧
    (({ path := "b/index.js.map", type := "asset" } : ModuleArtifact) ∈
      collectArtifacts "b" ["index.js", "index.js.map"] true) :=
  ⟨(collectArtifacts_classification "b" ["index.js", "index.js.map"] true).1
      "index.js" (by decide) (by decide),
    ((collectArtifacts_classification "b" ["index.js", "index.js.map"] true).2.1
      "index.js.map" (by decide) (by decide)).mpr rfl⟩

/-- C4. In publish mode the bundle step's `sourcemap` option is `true` iff
the `WEBSTIR_BACKEND_SOURCEMAPS` flag is set to an affirmative value
(`on`/`true`/`1`/`yes` after trim and lower-casing). -/
theorem publish_sourcemaps_iff_flag (flag : Option String) :
    (runEsbuildSourcemapOption Mode.publish flag = true ↔
      ∃ s, flag = some s ∧
        jsToLower (jsTrim s) ∈ (["on", "true", "1", "yes"] : List String)) ∧
    runEsbuildSourcemapOption Mode.publish none = false ∧
    runEsbuildSourcemapOption Mode.publish (some " ON ") = true ∧
    runEsbuildSourcemapOption Mode.publish (some "0") = false := by
  refine ⟨?_, by decide, by decide, by decide⟩
  cases flag with
  | none => simp [runEsbuildSourcemapOption, shouldEmitPublishSourcemaps]
  | some s =>
    simp only [runEsbuildSourcemapOption, shouldEmitPublishSourcemaps]
    constructor
    · intro h
      refine ⟨s, rfl, ?_⟩
      simp only [beq_self_eq_true, Bool.true_and, if_true] at h
      rcases Bool.or_eq_true_iff.mp h with h | h
      · rcases Bool.or_eq_true_iff.mp h with h | h
        · rcases Bool.or_eq_true_iff.mp h with h | h
          · simp [eq_of_beq h]
          · simp [eq_of_beq h]
        · simp [eq_of_beq h]
      · simp [eq_of_beq h]
    · rintro ⟨t, ht, hmem⟩
      cases ht
      simp only [List.mem_cons, List.not_mem_nil, or_false] at hmem
      rcases hmem with h | h | h | h <;> simp [h]

/-- Witness for C4, instantiating the iff both ways. -/
theorem publish_sourcemaps_iff_flag_witness :
    runEsbuildSourcemapOption Mode.publish (some "yes") = true :=
  ((publish_sourcemaps_iff_flag (some "yes")).1).mpr
    ⟨"yes", rfl, by decide⟩

/-- C9. A spawn failure with code `ENOENT` yields exactly one `warn`
diagnostic and success; a non-zero exit yields a fatal failure whose
diagnostics contain the `error` exit-code message, the trimmed stderr as an
`error` diagnostic when non-empty, and the trimmed stdout as an `info`
diagnostic when non-empty. -/
theorem runTypeCheck_outcomes (tsconfigPath : String) :
    (runTypeCheck tsconfigPath true (TscOutcome.spawnError (some "ENOENT")) =
      ([⟨Severity.warn,
         "TypeScript compiler (tsc) not found in PATH; skipping type-check.",
         none⟩], true)) ∧
    (∀ (code : Int) (stdout stderr : String), code ≠ 0 →
      (runTypeCheck tsconfigPath true
          (TscOutcome.exited code stdout stderr)).2 = false ∧
      (⟨Severity.error,
        "Type checking failed (exit code " ++ toString code ++ ").",
        some tsconfigPath⟩ : Diagnostic) ∈
        (runTypeCheck tsconfigPath true
          (TscOutcome.exited code stdout stderr)).1 ∧
      (jsTrim stderr ≠ "" →
        (⟨Severity.error, jsTrim stderr, none⟩ : Diagnostic) ∈
          (runTypeCheck tsconfigPath true
            (TscOutcome.exited code stdout stderr)).1) ∧
      (jsTrim stdout ≠ "" →
        (⟨Severity.info, jsTrim stdout, none⟩ : Diagnostic) ∈
          (runTypeCheck tsconfigPath true
            (TscOutcome.exited code stdout stderr)).1)) := by
  constructor
  · rfl
  · intro code stdout stderr hcode
    simp only [runTypeCheck, Bool.not_true, if_neg hcode]
    refine ⟨rfl, ?_, ?_, ?_⟩
    · simp
    · intro hne
      simp [hne]
    · intro hne
      by_cases herr : jsTrim stderr = "" <;> simp [herr, hne]

/-- Witness for C9 at a concrete failing exit. -/
theorem runTypeCheck_outcomes_witness :
    (runTypeCheck "src/backend/tsconfig.json" true
      (TscOutcome.exited 2 "" "boom")).2 = false :=
  ((runTypeCheck_outcomes "src/backend/tsconfig.json").2 2 "" "boom"
    (by decide)).1

/-! ## Association-list lemmas for the JSON-object / `Map` model -/

theorem strEq_of_data {a b : String} (h : a.data = b.data) : a = b := by
  cases a; cases b; simp only at h; rw [h]

theorem jsMapGet_eq_some_of_mem {β : Type} :
    ∀ {m : List (String × β)} {k : String} {v : β},
      (m.map Prod.fst).Nodup → (k, v) ∈ m → jsMapGet m k = some v
  | [], _, _ => by intro _ h; exact absurd h (List.not_mem_nil _)
  | (k', v') :: rest, k, v => by
    intro nodup hm
    rcases List.mem_cons.mp hm with heq | hrest
    · cases heq
      simp [jsMapGet]
    · have hk : k' ≠ k := by
        intro hkk
        subst hkk
        have : k' ∈ rest.map Prod.fst :=
          List.mem_map_of_mem Prod.fst hrest
        exact (List.nodup_cons.mp nodup).1 this
      simp only [jsMapGet, if_neg hk]
      exact jsMapGet_eq_some_of_mem (List.nodup_cons.mp nodup).2 hrest

theorem jsMapGet_isSome_of_mem_keys {β : Type} :
    ∀ {m : List (String × β)} {k : String},
      k ∈ m.map Prod.fst → ∃ v, jsMapGet m k = some v
  | [], _ => by intro h; exact absurd h (List.not_mem_nil _)
  | (k', v') :: rest, k => by
    intro h
    by_cases hk : k' = k
    · exact ⟨v', by simp [jsMapGet, hk]⟩
    · have : k ∈ rest.map Prod.fst := by
        rcases List.mem_cons.mp h with heq | hrest
        · exact absurd heq.symm hk
        · exact hrest
      rcases jsMapGet_isSome_of_mem_keys this with ⟨v, hv⟩
      exact ⟨v, by simp only [jsMapGet, if_neg hk]; exact hv⟩

/-- C1 counterexample: on the very first build (no prior persisted map) with
outputs `{"index.js": 100}`, the code does emit a diff diagnostic (every new
path counts as changed against the empty map), contradicting the claim that
no diff diagnostic is emitted on a first build.  The repository's own test
(`tests/manifest.test.js`, "expected first diff to report changed files")
asserts this behaviour. -/
theorem persistAndDiffOutputs_first_build_emits :
    (persistAndDiffOutputs none (some [("index.js", 100)]) Mode.build
      none).1 =
      [⟨Severity.info, "[webstir-backend] build:changed 1 file(s): index.js",
        none⟩] ∧
    (persistAndDiffOutputs none (some [("index.js", 100)]) Mode.build
      none).1 ≠ [] := by
  constructor
  · decide
  · decide

/-- C1 (amended).  Identical consecutive output maps produce no diff
diagnostic; when exactly one previously-present path changes byte size (and
nothing is added or removed) exactly one `info` diagnostic containing
"changed 1 file" is emitted; the persisted map is unconditionally
overwritten with the new map; and on a first build every output path counts
as changed, so a singleton output map yields one diagnostic rather than
none. -/
theorem persistAndDiffOutputs_cache_diff :
    (∀ (m : List (String × Nat)) (mode : Mode) (dm : Option String),
      (m.map Prod.fst).Nodup →
      persistAndDiffOutputs (some m) (some m) mode dm = ([], some m)) ∧
    (∀ (xs ys : List (String × Nat)) (k : String) (v₁ v₂ : Nat)
        (mode : Mode),
      ((xs ++ (k, v₂) :: ys).map Prod.fst).Nodup →
      v₁ ≠ v₂ →
      (persistAndDiffOutputs (some (xs ++ (k, v₁) :: ys))
          (some (xs ++ (k, v₂) :: ys)) mode none).1 =
        [⟨Severity.info,
          "[webstir-backend] " ++ mode.toStr ++ ":changed 1 file(s): " ++ k,
          none⟩] ∧
      strContains
        ("[webstir-backend] " ++ mode.toStr ++ ":changed 1 file(s): " ++ k)
        "changed 1 file" = true) ∧
    (∀ (prev : Option (List (String × Nat))) (out : List (String × Nat))
        (mode : Mode) (dm : Option String),
      (persistAndDiffOutputs prev (some out) mode dm).2 = some out) ∧
    ((persistAndDiffOutputs
        (persistAndDiffOutputs none (some [("index.js", 100)]) Mode.build
          none).2
        (some [("index.js", 150)]) Mode.build none).1 =
      [⟨Severity.info, "[webstir-backend] build:changed 1 file(s): index.js",
        none⟩] ∧
     (persistAndDiffOutputs (some [("index.js", 150)])
        (some [("index.js", 150)]) Mode.build none).1 = []) := by
  have keysEq : ∀ (xs ys : List (String × Nat)) (k : String) (v₁ v₂ : Nat),
      ((xs ++ (k, v₁) :: ys).map Prod.fst) =
        ((xs ++ (k, v₂) :: ys).map Prod.fst) := by
    intro xs ys k v₁ v₂
    simp
  refine ⟨?_, ?_, ?_, by decide, by decide⟩
  · intro m mode dm nodup
    have hchanged :
        m.filter (fun p => decide (jsMapGet m p.1 ≠ some p.2)) = [] := by
      rw [List.filter_eq_nil_iff]
      intro p hp
      simp only [decide_not, Bool.not_eq_true', decide_eq_false_iff_not,
        not_not]
      exact jsMapGet_eq_some_of_mem nodup (by rw [Prod.mk.eta]; exact hp)
    have hremoved :
        m.filter (fun p => decide (jsMapGet m p.1 = none)) = [] := by
      rw [List.filter_eq_nil_iff]
      intro p hp
      rcases jsMapGet_isSome_of_mem_keys
        (List.mem_map_of_mem Prod.fst hp) with ⟨v, hv⟩
      simp [hv]
    simp only [persistAndDiffOutputs, Option.getD_some]
    rw [hchanged, hremoved]
    simp
  · intro xs ys k v₁ v₂ mode nodup hne
    have nodupPre : ((xs ++ (k, v₁) :: ys).map Prod.fst).Nodup := by
      rw [keysEq xs ys k v₁ v₂]; exact nodup
    have hget : jsMapGet (xs ++ (k, v₁) :: ys) k = some v₁ :=
      jsMapGet_eq_some_of_mem nodupPre
        (List.mem_append_right xs (List.mem_cons_self _ _))
    have hxs : ∀ p ∈ xs,
        jsMapGet (xs ++ (k, v₁) :: ys) p.1 = some p.2 := by
      intro p hp
      exact jsMapGet_eq_some_of_mem nodupPre
        (List.mem_append_left _ (by rw [Prod.mk.eta]; exact hp))
    have hys : ∀ p ∈ ys,
        jsMapGet (xs ++ (k, v₁) :: ys) p.1 = some p.2 := by
      intro p hp
      exact jsMapGet_eq_some_of_mem nodupPre
        (List.mem_append_right xs (List.mem_cons_of_mem _
          (by rw [Prod.mk.eta]; exact hp)))
    have hchanged :
        ((xs ++ (k, v₂) :: ys).filter
          (fun p => decide
            (jsMapGet (xs ++ (k, v₁) :: ys) p.1 ≠ some p.2))).map Prod.fst =
          [k] := by
      rw [List.filter_append, List.filter_cons]
      have h1 : xs.filter (fun p => decide
          (jsMapGet (xs ++ (k, v₁) :: ys) p.1 ≠ some p.2)) = [] := by
        rw [List.filter_eq_nil_iff]
        intro p hp
        simp only [decide_not, Bool.not_eq_true', decide_eq_false_iff_not,
          not_not]
        exact hxs p hp
      have h2 : ys.filter (fun p => decide
          (jsMapGet (xs ++ (k, v₁) :: ys) p.1 ≠ some p.2)) = [] := by
        rw [List.filter_eq_nil_iff]
        intro p hp
        simp only [decide_not, Bool.not_eq_true', decide_eq_false_iff_not,
          not_not]
        exact hys p hp
      have hkv : decide
          (jsMapGet (xs ++ (k, v₁) :: ys) (k, v₂).1 ≠ some (k, v₂).2) =
          true := by
        simp only [hget, decide_eq_true_eq]
        intro hEq
        exact hne (Option.some.inj hEq)
      rw [h1, h2, if_pos hkv]
      simp
    have hremoved :
        ((xs ++ (k, v₁) :: ys).filter
          (fun p => decide
            (jsMapGet (xs ++ (k, v₂) :: ys) p.1 = none))).map Prod.fst =
          [] := by
      have hnil : (xs ++ (k, v₁) :: ys).filter
          (fun p => decide
            (jsMapGet (xs ++ (k, v₂) :: ys) p.1 = none)) = [] := by
        rw [List.filter_eq_nil_iff]
        intro p hp
        have hkeys : p.1 ∈ (xs ++ (k, v₂) :: ys).map Prod.fst := by
          rw [← keysEq xs ys k v₁ v₂]
          exact List.mem_map_of_mem Prod.fst hp
        rcases jsMapGet_isSome_of_mem_keys hkeys with ⟨v, hv⟩
        simp [hv]
      rw [hnil]; rfl
    constructor
    · simp only [persistAndDiffOutputs, Option.getD_some]
      rw [hchanged, hremoved]
      have hcond : List.length ([k] : List String) +
          List.length ([] : List String) > 0 := by simp
      rw [if_pos hcond]
      have hmsg : "[webstir-backend] " ++ mode.toStr ++ ":changed " ++
          toString (List.length ([k] : List String)) ++ " file(s): " ++
          String.intercalate ", " (List.take (resolveDiagMax none) [k]) ++
          (if List.length ([k] : List String) > resolveDiagMax none then
            " (+" ++
              toString (List.length ([k] : List String) -
                resolveDiagMax none) ++ " more)"
          else "") ++
          (if List.length ([] : List String) > 0 then
            ", removed=" ++ toString (List.length ([] : List String))
          else "") =
          "[webstir-backend] " ++ mode.toStr ++ ":changed 1 file(s): " ++
            k := by
        have e1 : toString (List.length ([k] : List String)) = "1" := by
          rw [List.length_singleton]; decide
        have e2 : String.intercalate ", "
            (List.take (resolveDiagMax none) [k]) = k := rfl
        have e3 : (if List.length ([k] : List String) > resolveDiagMax none
            then " (+" ++
              toString (List.length ([k] : List String) -
                resolveDiagMax none) ++ " more)"
            else "") = "" := by
          rw [List.length_singleton]; decide
        have e4 : (if List.length ([] : List String) > 0 then
            ", removed=" ++ toString (List.length ([] : List String))
          else "") = "" := by decide
        rw [e1, e2, e3, e4]
        apply strEq_of_data
        simp [String.data_append]
      exact congrArg
        (fun m => [(⟨Severity.info, m, none⟩ : Diagnostic)]) hmsg
    · rw [strContains, decide_eq_true_eq]
      refine ⟨("[webstir-backend] " ++ mode.toStr ++ ":").data,
        "(s): ".data ++ k.data, ?_⟩
      simp [String.data_append]
  · intro prev out mode dm
    rfl

/-- Witness for C1's amended theorem at concrete inputs. -/
theorem persistAndDiffOutputs_cache_diff_witness :
    persistAndDiffOutputs (some [("index.js", 150)])
        (some [("index.js", 150)]) Mode.build none =
      ([], some [("index.js", 150)]) ∧
    (persistAndDiffOutputs (some [("a.js", 1), ("b.js", 2)])
        (some [("a.js", 1), ("b.js", 3)]) Mode.build none).1 =
      [⟨Severity.info, "[webstir-backend] build:changed 1 file(s): b.js",
        none⟩] :=
  ⟨persistAndDiffOutputs_cache_diff.1 [("index.js", 150)] Mode.build none
      (by decide),
    by
      have h := (persistAndDiffOutputs_cache_diff.2.1 [("a.js", 1)] []
        "b.js" 2 3 Mode.build (by decide) (by decide)).1
      simpa using h⟩

/-! ## `jsMapSet` / `buildSeen` lemmas for duplicate-route counting -/

theorem jsMapGet_jsMapSet_self {β : Type} :
    ∀ (m : List (String × β)) (k : String) (v : β),
      jsMapGet (jsMapSet m k v) k = some v
  | [], k, v => by simp [jsMapSet, jsMapGet]
  | (k', v') :: rest, k, v => by
    by_cases hk : k' = k
    · simp [jsMapSet, hk, jsMapGet]
    · simp only [jsMapSet, if_neg hk, jsMapGet, if_neg hk]
      exact jsMapGet_jsMapSet_self rest k v

theorem jsMapGet_jsMapSet_ne {β : Type} :
    ∀ (m : List (String × β)) (k k' : String) (v : β), k ≠ k' →
      jsMapGet (jsMapSet m k v) k' = jsMapGet m k'
  | [], k, k', v => by
    intro hne
    simp [jsMapSet, jsMapGet, hne]
  | (k₀, v₀) :: rest, k, k', v => by
    intro hne
    by_cases hk : k₀ = k
    · subst hk
      simp [jsMapSet, jsMapGet, hne]
    · simp only [jsMapSet, if_neg hk, jsMapGet]
      by_cases hk' : k₀ = k'
      · simp [hk']
      · simp only [if_neg hk']
        exact jsMapGet_jsMapSet_ne rest k k' v hne

theorem jsMapSet_keys {β : Type} :
    ∀ (m : List (String × β)) (k : String) (v : β),
      (jsMapSet m k v).map Prod.fst =
        if k ∈ m.map Prod.fst then m.map Prod.fst
        else m.map Prod.fst ++ [k]
  | [], k, v => by simp [jsMapSet]
  | (k₀, v₀) :: rest, k, v => by
    by_cases hk : k₀ = k
    · subst hk
      simp [jsMapSet]
    · have hne : ¬(k = k₀) := fun h => hk h.symm
      simp only [jsMapSet, if_neg hk, List.map_cons, List.mem_cons]
      rw [jsMapSet_keys rest k v]
      by_cases hmem : k ∈ rest.map Prod.fst
      · simp [hmem, hne]
      · simp [hmem, hne]

theorem jsMapSet_keys_nodup {β : Type} (m : List (String × β)) (k : String)
    (v : β) (h : (m.map Prod.fst).Nodup) :
    ((jsMapSet m k v).map Prod.fst).Nodup := by
  rw [jsMapSet_keys]
  by_cases hmem : k ∈ m.map Prod.fst
  · rwa [if_pos hmem]
  · rw [if_neg hmem, List.nodup_append]
    exact ⟨h, List.nodup_singleton k, by
      intro a ha hb
      rcases List.mem_singleton.mp hb with rfl
      exact hmem ha⟩

theorem buildSeen_aux_get :
    ∀ (keys : List String) (m : List (String × Nat)) (k : String),
      jsMapGet (keys.foldl (fun seen key =>
        jsMapSet seen key ((jsMapGet seen key).getD 0 + 1)) m) k =
      if k ∈ keys ∨ (jsMapGet m k).isSome then
        some ((jsMapGet m k).getD 0 + keys.count k)
      else none
  | [], m, k => by
    simp only [List.foldl_nil, List.not_mem_nil, false_or, List.count_nil]
    cases h : jsMapGet m k with
    | none => simp [h]
    | some v => simp [h]
  | key :: rest, m, k => by
    rw [List.foldl_cons,
      buildSeen_aux_get rest (jsMapSet m key ((jsMapGet m key).getD 0 + 1)) k]
    by_cases hk : k = key
    · subst hk
      rw [jsMapGet_jsMapSet_self]
      have hcount : (k :: rest).count k = rest.count k + 1 := by
        simp [List.count_cons]
      simp only [Option.isSome_some, or_true, if_true, Option.getD_some,
        List.mem_cons, true_or, hcount]
      congr 1
      omega
    · have hne : key ≠ k := fun h => hk h.symm
      rw [jsMapGet_jsMapSet_ne m key k _ hne]
      have hcount : (key :: rest).count k = rest.count k := by
        simp [List.count_cons, hk]
      rw [hcount]
      have hiff : (k ∈ rest ∨ (jsMapGet m k).isSome = true) ↔
          (k ∈ key :: rest ∨ (jsMapGet m k).isSome = true) := by
        simp [List.mem_cons, hk]
      exact if_congr hiff rfl rfl

theorem buildSeen_get (keys : List String) (k : String) :
    jsMapGet (buildSeen keys) k =
      if keys.count k = 0 then none else some (keys.count k) := by
  rw [buildSeen, buildSeen_aux_get keys [] k]
  have hget : jsMapGet ([] : List (String × Nat)) k = none := rfl
  rw [hget]
  simp only [Option.isSome_none, Bool.false_eq_true, or_false,
    Option.getD_none, Nat.zero_add]
  by_cases hmem : k ∈ keys
  · rw [if_pos hmem, if_neg]
    simp only [← List.count_pos_iff] at hmem
    omega
  · rw [if_neg hmem, if_pos]
    exact List.count_eq_zero.mpr hmem

theorem buildSeen_keys_nodup (keys : List String) :
    ((buildSeen keys).map Prod.fst).Nodup := by
  rw [buildSeen]
  suffices h : ∀ (l : List String) (m : List (String × Nat)),
      (m.map Prod.fst).Nodup →
      ((l.foldl (fun seen key =>
        jsMapSet seen key ((jsMapGet seen key).getD 0 + 1)) m).map
          Prod.fst).Nodup by
    exact h keys [] (by simp)
  intro l
  induction l with
  | nil => intro m hm; simpa using hm
  | cons key rest ih =>
    intro m hm
    rw [List.foldl_cons]
    exact ih _ (jsMapSet_keys_nodup m key _ hm)

theorem mem_of_jsMapGet_eq_some {β : Type} :
    ∀ {m : List (String × β)} {k : String} {v : β},
      jsMapGet m k = some v → (k, v) ∈ m
  | [], k, v => by intro h; simp [jsMapGet] at h
  | (k₀, v₀) :: rest, k, v => by
    intro h
    by_cases hk : k₀ = k
    · subst hk
      have h' : (if k₀ = k₀ then some v₀ else jsMapGet rest k₀) = some v := h
      rw [if_pos rfl] at h'
      have hv := Option.some.inj h'
      subst hv
      exact List.mem_cons_self _ _
    · simp only [jsMapGet, if_neg hk] at h
      exact List.mem_cons_of_mem _ (mem_of_jsMapGet_eq_some h)

/-- C2 counterexample: `normalizePath` collapses only the first run of
slashes (the regex has no global flag), so `/a///b` does not normalize to
`/a/b` — it is returned unchanged.  The spec's own design notes (§9) flag
this behaviour of the source. -/
theorem normalizePath_multi_slash_counterexample :
    normalizePath (some "/a///b") = "/a///b" ∧
    normalizePath (some "/a///b") ≠ "/a/b" := by
  constructor
  · decide
  · decide

/-- C2 (amended).  Route keys are upper-cased method plus normalized path,
where normalization ensures a leading slash, collapses only the FIRST run
of consecutive slashes (the leading run), and strips a trailing slash
except for the root: a key is flagged with count `c` iff it occurs `c > 1`
times; `/accounts` and `/accounts/` under `GET` form one duplicate group
with count 2; `//a/b` normalizes to `/a/b` but `/a///b` stays `/a///b`. -/
theorem duplicate_route_detection_spec :
    (∀ (routes : List RouteDef) (k : String) (c : Nat),
      ((k, c) ∈ duplicateRouteGroups routes ↔
        (routes.map routeKey).count k = c ∧ 1 < c)) ∧
    duplicateRouteGroups
      [⟨some "GET", some "/accounts"⟩, ⟨some "get", some "/accounts/"⟩] =
      [("GET /accounts", 2)] ∧
    duplicateRouteDiagnostics
      [⟨some "GET", some "/accounts"⟩, ⟨some "get", some "/accounts/"⟩] =
      [⟨Severity.warn,
        "[webstir-backend] duplicate route definitions: GET /accounts (2x)",
        none⟩] ∧
    normalizePath (some "//a/b") = "/a/b" ∧
    normalizePath (some "a/b/") = "/a/b" ∧
    normalizePath (some "/a///b") = "/a///b" := by
  refine ⟨?_, by decide, by decide, by decide, by decide, by decide⟩
  intro routes k c
  rw [duplicateRouteGroups, List.mem_filter]
  constructor
  · rintro ⟨hmem, hc⟩
    have hget := jsMapGet_eq_some_of_mem
      (buildSeen_keys_nodup (routes.map routeKey)) hmem
    rw [buildSeen_get] at hget
    by_cases hz : (routes.map routeKey).count k = 0
    · rw [if_pos hz] at hget; cases hget
    · rw [if_neg hz] at hget
      exact ⟨Option.some.inj hget, by
        simpa using of_decide_eq_true hc⟩
  · rintro ⟨hcount, hc⟩
    refine ⟨?_, by simpa using hc⟩
    apply mem_of_jsMapGet_eq_some
    rw [buildSeen_get, hcount, if_neg (by omega)]

/-- Witness for C2's amended theorem at a concrete duplicated route list. -/
theorem duplicate_route_detection_spec_witness :
    ("GET /accounts", 2) ∈ duplicateRouteGroups
      [⟨some "GET", some "/accounts"⟩, ⟨some "get", some "/accounts/"⟩] :=
  (duplicate_route_detection_spec.1
    [⟨some "GET", some "/accounts"⟩, ⟨some "get", some "/accounts/"⟩]
    "GET /accounts" 2).mpr ⟨by decide, by decide⟩

/-! ## Case lemmas for `runEsbuildCache` under incremental non-publish use -/

theorem runEsbuildCache_reuse_case (mode : Mode) (buildRoot : String)
    (s : EsbuildCacheState) (e : List String) (c : IncrementalBuildEntry)
    (hmode : mode ≠ Mode.publish) (he : e ≠ [])
    (hsig : createEntrySignature e ≠ "")
    (hget : jsMapGet s.cache (createIncrementalKey mode buildRoot) = some c)
    (hmatch : c.entrySignature = createEntrySignature e) :
    runEsbuildCache mode buildRoot true e s =
      (s, [BuildAction.rebuildCtx c.ctxId]) := by
  have hprod : (mode == Mode.publish) = false := by
    cases mode
    · rfl
    · exact absurd rfl hmode
    · rfl
  have hempty : e.isEmpty = false := by
    cases e
    · exact absurd rfl he
    · rfl
  simp [runEsbuildCache, hprod, hempty, hget, hsig, hmatch]

theorem runEsbuildCache_fresh_case (mode : Mode) (buildRoot : String)
    (s : EsbuildCacheState) (e : List String)
    (hmode : mode ≠ Mode.publish) (he : e ≠ [])
    (hsig : createEntrySignature e ≠ "")
    (hget : jsMapGet s.cache (createIncrementalKey mode buildRoot) = none) :
    runEsbuildCache mode buildRoot true e s =
      ({ cache := jsMapSet s.cache (createIncrementalKey mode buildRoot)
           ⟨createEntrySignature e, s.nextId⟩,
         nextId := s.nextId + 1 },
        [BuildAction.createCtx s.nextId, BuildAction.rebuildCtx s.nextId]) := by
  have hprod : (mode == Mode.publish) = false := by
    cases mode
    · rfl
    · exact absurd rfl hmode
    · rfl
  have hempty : e.isEmpty = false := by
    cases e
    · exact absurd rfl he
    · rfl
  simp [runEsbuildCache, hprod, hempty, hget, hsig]

theorem runEsbuildCache_swap_case (mode : Mode) (buildRoot : String)
    (s : EsbuildCacheState) (e : List String) (c : IncrementalBuildEntry)
    (hmode : mode ≠ Mode.publish) (he : e ≠ [])
    (hsig : createEntrySignature e ≠ "")
    (hget : jsMapGet s.cache (createIncrementalKey mode buildRoot) = some c)
    (hne : c.entrySignature ≠ createEntrySignature e) :
    runEsbuildCache mode buildRoot true e s =
      ({ cache := jsMapSet
           (jsMapDelete s.cache (createIncrementalKey mode buildRoot))
           (createIncrementalKey mode buildRoot)
           ⟨createEntrySignature e, s.nextId⟩,
         nextId := s.nextId + 1 },
        [BuildAction.disposeCtx c.ctxId, BuildAction.createCtx s.nextId,
          BuildAction.rebuildCtx s.nextId]) := by
  have hprod : (mode == Mode.publish) = false := by
    cases mode
    · rfl
    · exact absurd rfl hmode
    · rfl
  have hempty : e.isEmpty = false := by
    cases e
    · exact absurd rfl he
    · rfl
  simp [runEsbuildCache, disposeIncrementalBuild, hprod, hempty, hget, hsig,
    hne]

/-- C6. For two consecutive incremental non-publish builds with the same
(mode, buildRoot) key: an unchanged entry signature makes the second build
rebuild the cached session in place (its only action is that rebuild, the
cache state is untouched); a differing signature instead disposes the stale
session and creates, stores and rebuilds a fresh one under that key. -/
theorem incremental_cache_reuse :
    (∀ (s : EsbuildCacheState) (mode : Mode) (buildRoot : String)
        (e₁ e₂ : List String),
      mode ≠ Mode.publish → e₁ ≠ [] → e₂ ≠ [] →
      createEntrySignature e₁ ≠ "" →
      createEntrySignature e₂ = createEntrySignature e₁ →
      ∃ c : IncrementalBuildEntry,
        jsMapGet (runEsbuildCache mode buildRoot true e₁ s).1.cache
          (createIncrementalKey mode buildRoot) = some c ∧
        c.entrySignature = createEntrySignature e₁ ∧
        runEsbuildCache mode buildRoot true e₂
            (runEsbuildCache mode buildRoot true e₁ s).1 =
          ((runEsbuildCache mode buildRoot true e₁ s).1,
            [BuildAction.rebuildCtx c.ctxId])) ∧
    (∀ (s : EsbuildCacheState) (mode : Mode) (buildRoot : String)
        (e₂ : List String) (c : IncrementalBuildEntry),
      mode ≠ Mode.publish → e₂ ≠ [] → createEntrySignature e₂ ≠ "" →
      jsMapGet s.cache (createIncrementalKey mode buildRoot) = some c →
      c.entrySignature ≠ createEntrySignature e₂ →
      runEsbuildCache mode buildRoot true e₂ s =
        ({ cache := jsMapSet
             (jsMapDelete s.cache (createIncrementalKey mode buildRoot))
             (createIncrementalKey mode buildRoot)
             ⟨createEntrySignature e₂, s.nextId⟩,
           nextId := s.nextId + 1 },
          [BuildAction.disposeCtx c.ctxId, BuildAction.createCtx s.nextId,
            BuildAction.rebuildCtx s.nextId])) := by
  constructor
  · intro s mode buildRoot e₁ e₂ hmode he₁ he₂ hsig₁ heq
    have hsig₂ : createEntrySignature e₂ ≠ "" := by rw [heq]; exact hsig₁
    cases hcase : jsMapGet s.cache (createIncrementalKey mode buildRoot) with
    | some c₀ =>
      by_cases hm : c₀.entrySignature = createEntrySignature e₁
      · rw [runEsbuildCache_reuse_case mode buildRoot s e₁ c₀ hmode he₁
          hsig₁ hcase hm]
        refine ⟨c₀, by simpa using hcase, hm, ?_⟩
        exact runEsbuildCache_reuse_case mode buildRoot s e₂ c₀ hmode he₂
          hsig₂ (by simpa using hcase) (by rw [hm, heq])
      · rw [runEsbuildCache_swap_case mode buildRoot s e₁ c₀ hmode he₁
          hsig₁ hcase hm]
        refine ⟨⟨createEntrySignature e₁, s.nextId⟩, ?_, rfl, ?_⟩
        · exact jsMapGet_jsMapSet_self _ _ _
        · exact runEsbuildCache_reuse_case mode buildRoot _ e₂ _ hmode he₂
            hsig₂ (jsMapGet_jsMapSet_self _ _ _) (by rw [heq])
    | none =>
      rw [runEsbuildCache_fresh_case mode buildRoot s e₁ hmode he₁ hsig₁
        hcase]
      refine ⟨⟨createEntrySignature e₁, s.nextId⟩, ?_, rfl, ?_⟩
      · exact jsMapGet_jsMapSet_self _ _ _
      · exact runEsbuildCache_reuse_case mode buildRoot _ e₂ _ hmode he₂
          hsig₂ (jsMapGet_jsMapSet_self _ _ _) (by rw [heq])
  · intro s mode buildRoot e₂ c hmode he hsig hget hne
    exact runEsbuildCache_swap_case mode buildRoot s e₂ c hmode he hsig
      hget hne

/-- Witness for C6 at a concrete pair of consecutive incremental builds. -/
theorem incremental_cache_reuse_witness :
    runEsbuildCache Mode.build "/w/build" true ["a.ts"]
        (runEsbuildCache Mode.build "/w/build" true ["a.ts"] ⟨[], 0⟩).1 =
      ((runEsbuildCache Mode.build "/w/build" true ["a.ts"] ⟨[], 0⟩).1,
        [BuildAction.rebuildCtx 0]) := by
  obtain ⟨c, hget, hsig, heq⟩ := incremental_cache_reuse.1 ⟨[], 0⟩
    Mode.build "/w/build" ["a.ts"] ["a.ts"] (by decide) (by decide)
    (by decide) (by decide) rfl
  have hconc : jsMapGet
      (runEsbuildCache Mode.build "/w/build" true ["a.ts"] ⟨[], 0⟩).1.cache
      (createIncrementalKey Mode.build "/w/build") =
      some ⟨"a.ts", 0⟩ := by decide
  have hc : c = ⟨"a.ts", 0⟩ := Option.some.inj (hget.symm.trans hconc)
  rw [hc] at heq
  exact heq

/-- C7 (code bug): after an incremental build caches a session under the
key `build:/w/build/backend`, a subsequent NON-incremental build against
the same key performs only a one-shot build and leaves the cached session
in the cache undisposed — `incrementalKey` is `undefined` whenever
`useIncremental` is false, so the `if (incrementalKey) dispose` guards in
the publish/one-shot branches are unreachable, contradicting the claimed
(and spec'd) dispose-before-one-shot behaviour. -/
theorem nonincremental_build_leaves_cache_entry :
    (runEsbuildCache Mode.build "/w/build/backend" false
      ["/w/src/backend/index.ts"]
      (runEsbuildCache Mode.build "/w/build/backend" true
        ["/w/src/backend/index.ts"] ⟨[], 0⟩).1).2 =
      [BuildAction.oneShot] ∧
    jsMapGet (runEsbuildCache Mode.build "/w/build/backend" false
      ["/w/src/backend/index.ts"]
      (runEsbuildCache Mode.build "/w/build/backend" true
        ["/w/src/backend/index.ts"] ⟨[], 0⟩).1).1.cache
      (createIncrementalKey Mode.build "/w/build/backend") =
      some ⟨"/w/src/backend/index.ts", 0⟩ := by
  constructor
  · decide
  · decide

/-! ## Manifest hydration lemmas and claims -/

theorem deriveModuleName_length_pos (pkg : Option WorkspacePackageJson)
    (workspaceRoot : String) :
    0 < (deriveModuleName pkg workspaceRoot).length := by
  simp only [deriveModuleName]
  split_ifs with h1 h2
  · exact h1
  · exact h2
  · rw [String.length_append]
    have : (0 : Nat) < "backend-module-".length := by decide
    omega

theorem deriveModuleVersion_length_pos (pkg : Option WorkspacePackageJson) :
    0 < (deriveModuleVersion pkg).length := by
  simp only [deriveModuleVersion]
  split_ifs with h1 h2
  · exact h1
  · exact h2
  · decide

theorem filter_error_of_map_warn (ms : List String) :
    (ms.map (fun m => (⟨Severity.warn, m, none⟩ : Diagnostic))).filter
      (fun d => d.severity == Severity.error) = [] := by
  induction ms with
  | nil => rfl
  | cons m rest ih =>
    simp [List.filter_cons, ih]

theorem filter_error_of_pkgReadDiagnostics
    (readPkg : Except String WorkspacePackageJson) (workspaceRoot : String) :
    (pkgReadDiagnostics readPkg workspaceRoot).filter
      (fun d => d.severity == Severity.error) = [] := by
  cases readPkg with
  | ok p => rfl
  | error e => rfl

/-- C8. When the merged manifest candidate fails schema validation, the
hydrator returns the minimal fallback manifest (contract
version/name/version/kind with every collection empty), appends exactly one
`error` diagnostic — the one listing every validation issue — and the
fallback has a non-empty name and version and itself passes the (spec-
modelled) schema check. -/
theorem manifest_validation_failure_fallback
    (readPkg : Except String WorkspacePackageJson) (warns : List String)
    (defn : Option ModuleDefinition)
    (validate : ModuleManifest → ValidationResult)
    (workspaceRoot : String) (entryPoints : List String)
    (diagnostics : List Diagnostic) (issues : List ValidationIssue)
    (hval : validate (loadManifestCandidate readPkg defn workspaceRoot) =
      ValidationResult.err issues) :
    loadBackendModuleManifest readPkg (warns, defn) validate workspaceRoot
        entryPoints diagnostics =
      (fallbackManifest (workspacePackageOf readPkg) workspaceRoot,
        diagnostics ++ pkgReadDiagnostics readPkg workspaceRoot ++
          warns.map (fun m => (⟨Severity.warn, m, none⟩ : Diagnostic)) ++
          [validationFailureDiagnostic issues]) ∧
    ((loadBackendModuleManifest readPkg (warns, defn) validate
        workspaceRoot entryPoints diagnostics).2.drop
          diagnostics.length).filter
        (fun d => d.severity == Severity.error) =
      [validationFailureDiagnostic issues] ∧
    0 < (fallbackManifest (workspacePackageOf readPkg)
      workspaceRoot).name.length ∧
    0 < (fallbackManifest (workspacePackageOf readPkg)
      workspaceRoot).version.length ∧
    (fallbackManifest (workspacePackageOf readPkg)
      workspaceRoot).capabilities = [] ∧
    (fallbackManifest (workspacePackageOf readPkg)
      workspaceRoot).routes = [] ∧
    (fallbackManifest (workspacePackageOf readPkg)
      workspaceRoot).views = [] ∧
    (fallbackManifest (workspacePackageOf readPkg)
      workspaceRoot).jobs = [] ∧
    (fallbackManifest (workspacePackageOf readPkg)
      workspaceRoot).events = [] ∧
    (fallbackManifest (workspacePackageOf readPkg)
      workspaceRoot).services = [] ∧
    moduleManifestSchemaCheck
      (fallbackManifest (workspacePackageOf readPkg) workspaceRoot) =
      true := by
  have hmain : loadBackendModuleManifest readPkg (warns, defn) validate
      workspaceRoot entryPoints diagnostics =
      (fallbackManifest (workspacePackageOf readPkg) workspaceRoot,
        diagnostics ++ pkgReadDiagnostics readPkg workspaceRoot ++
          warns.map (fun m => (⟨Severity.warn, m, none⟩ : Diagnostic)) ++
          [validationFailureDiagnostic issues]) := by
    simp only [loadBackendModuleManifest, hval]
  refine ⟨hmain, ?_, deriveModuleName_length_pos _ _,
    deriveModuleVersion_length_pos _, rfl, rfl, rfl, rfl, rfl, rfl, ?_⟩
  · rw [hmain]
    show ((diagnostics ++ pkgReadDiagnostics readPkg workspaceRoot ++
      warns.map (fun m => (⟨Severity.warn, m, none⟩ : Diagnostic)) ++
      [validationFailureDiagnostic issues]).drop
        diagnostics.length).filter
      (fun d => d.severity == Severity.error) =
      [validationFailureDiagnostic issues]
    rw [List.append_assoc, List.append_assoc, List.drop_left,
      List.filter_append, List.filter_append,
      filter_error_of_pkgReadDiagnostics, filter_error_of_map_warn]
    rfl
  · simp only [moduleManifestSchemaCheck, fallbackManifest,
      Bool.and_eq_true, beq_self_eq_true, decide_eq_true_eq]
    exact ⟨⟨⟨deriveModuleName_length_pos _ _,
      deriveModuleVersion_length_pos _⟩, trivial⟩, by decide⟩

/-- Witness for C8 at a concrete failing validation. -/
theorem manifest_validation_failure_fallback_witness :
    (loadBackendModuleManifest
        (Except.ok ⟨some "@demo/x", some "1.0.0", none⟩) (["w"], none)
        (fun _ => ValidationResult.err
          [⟨["name"], "Expected string, received number"⟩])
        "/w/app" [] []).1 =
      fallbackManifest (some ⟨some "@demo/x", some "1.0.0", none⟩)
        "/w/app" ∧
    moduleManifestSchemaCheck
      (fallbackManifest (some ⟨some "@demo/x", some "1.0.0", none⟩)
        "/w/app") = true := by
  have h := manifest_validation_failure_fallback
    (Except.ok ⟨some "@demo/x", some "1.0.0", none⟩) ["w"] none
    (fun _ => ValidationResult.err
      [⟨["name"], "Expected string, received number"⟩])
    "/w/app" [] [] [⟨["name"], "Expected string, received number"⟩] rfl
  exact ⟨congrArg Prod.fst h.1, h.2.2.2.2.2.2.2.2.2.2⟩

/-- C10. The monolithic hydrator (`loadWorkspaceModuleManifest`,
provider.ts) and the modular one (`loadBackendModuleManifest`,
manifest/pipeline.ts) agree on every input: same manifest, same appended
diagnostics in the same order. -/
theorem hydrators_equivalent :
    ∀ (readPkg : Except String WorkspacePackageJson)
      (loadDef : List String × Option ModuleDefinition)
      (validate : ModuleManifest → ValidationResult)
      (workspaceRoot : String) (entryPoints : List String)
      (diagnostics : List Diagnostic),
      loadWorkspaceModuleManifest readPkg loadDef validate workspaceRoot
        entryPoints diagnostics =
      loadBackendModuleManifest readPkg loadDef validate workspaceRoot
        entryPoints diagnostics := by
  intro readPkg loadDef validate workspaceRoot entryPoints diagnostics
  rfl

end Webstir
